import Mathlib

/-
Verification of the ICMP Echo ("ping") probe implemented in src/c/ping.c and
src/cpp/ping.cpp.  The two implementations share the packet layout, checksum,
reply verification and receive-loop logic; the C version is embedded in full,
and the C++-specific `icmp_socket::receive` normalisation and `main` loop are
embedded separately where a claim depends on them.

Modelling conventions:
  - Bytes are `Nat` values `< 256`; machine 16/32-bit arithmetic is `Nat`
    with explicit `% 65536` / `% 4294967296` where the C code truncates.
  - The packet structure `ping_pkt` (Linux `icmphdr` + 56-byte payload) is a
    Lean structure plus an explicit serializer giving its in-memory bytes.
    The target platforms of this Linux-specific code (x86-64, AArch64) are
    little-endian, so 16-bit fields are laid out low byte first; the code
    performs no byte swapping.
  - Time is modelled as integer milliseconds on a monotonic clock; `recvfrom`
    results are traces of events (return value, buffer contents, clock value
    observed immediately after the call returns).
-/

/-- ICMP_PAYLOAD_LENGTH = 64 - sizeof(struct icmphdr) = 64 - 8 = 56. -/
def icmp_payload_length : Nat := 56

/-- sizeof(struct ping_pkt): 8-byte ICMP header plus 56-byte payload. -/
def sizeof_ping_pkt : Nat := 64

/-- The fixed IPv4 header length assumed by both implementations. -/
def ip_header_length : Nat := 20

/-- raw_icmp_response_length = ip_header_length + sizeof(struct ping_pkt). -/
def raw_icmp_response_length : Nat := 84

/-- struct ping_pkt: the Linux `icmphdr` echo view (type, code, checksum,
un.echo.id, un.echo.sequence) followed by the payload bytes. -/
structure PingPkt where
  type : Nat
  code : Nat
  checksum : Nat
  id : Nat
  sequence : Nat
  payload : List Nat
deriving DecidableEq

/-- In-memory bytes of a `ping_pkt` on the little-endian target platforms:
type at offset 0, code at 1, checksum at 2..3, id at 4..5, sequence at 6..7
(16-bit fields low byte first, as the hardware stores them), payload from 8. -/
def serialize_ping_pkt (p : PingPkt) : List Nat :=
  [p.type % 256, p.code % 256,
   p.checksum % 256, p.checksum / 256 % 256,
   p.id % 256, p.id / 256 % 256,
   p.sequence % 256, p.sequence / 256 % 256] ++ p.payload

/-- The cast `(const struct ping_pkt *)&buffer[ip_header_length]`: reading the
structure fields back out of raw bytes (little-endian 16-bit fields). -/
def parse_ping_pkt (bytes : List Nat) : PingPkt :=
  { type := bytes.getD 0 0
    code := bytes.getD 1 0
    checksum := bytes.getD 2 0 + 256 * bytes.getD 3 0
    id := bytes.getD 4 0 + 256 * bytes.getD 5 0
    sequence := bytes.getD 6 0 + 256 * bytes.getD 7 0
    payload := (bytes.drop 8).take icmp_payload_length }

/-- The summation loop of `calculate_checksum`: the buffer is read as 16-bit
words (`const unsigned short * view`, little-endian on the target platforms,
so a word at bytes b0,b1 has value b0 + 256*b1); a trailing odd byte is added
as the low byte of a final word (`sum += *(unsigned char *)view`). -/
def wordSum : List Nat → Nat
  | b0 :: b1 :: rest => (b0 + 256 * b1) + wordSum rest
  | [b] => b
  | [] => 0

/-- calculate_checksum, operating on the raw bytes the C code reads through
its `unsigned short` view of the packet.  The accumulator is a 32-bit
`unsigned int` (mod-2^32 additions compose, so a single final reduction of
the word sum is equivalent); the two fold steps are
`sum = (sum >> 16) + (sum & 0xFFFF)` and `sum += (sum >> 16)`; the return
value is `~sum` converted to `unsigned short`. -/
def calculate_checksum (bytes : List Nat) : Nat :=
  let sum0 := wordSum bytes % 4294967296
  let sum1 := (sum0 / 65536 + sum0 % 65536) % 4294967296
  let sum2 := (sum1 + sum1 / 65536) % 4294967296
  (4294967295 - sum2) % 65536

/-- calculate_checksum applied to a packet structure, as the C signature
`unsigned short calculate_checksum(const struct ping_pkt *)` does. -/
def calculate_checksum_pkt (p : PingPkt) : Nat :=
  calculate_checksum (serialize_ping_pkt p)

/-- The payload written by both packet builders: payload[i] = '0' + i. -/
def ping_payload : List Nat := (List.range icmp_payload_length).map (fun i => 48 + i)

/-- initialize_icmp_packet / make_icmp_packet: zero the struct, set
type = ICMP_ECHO (8), id = getpid() (a 16-bit field, hence mod 2^16),
sequence = 0, fill the payload, then compute the checksum over the packet
(whose checksum field is still zero) and store it. -/
def initialize_icmp_packet (pid : Nat) : PingPkt :=
  let base : PingPkt :=
    { type := 8, code := 0, checksum := 0, id := pid % 65536,
      sequence := 0, payload := ping_payload }
  { base with checksum := calculate_checksum_pkt base }

/-- verify_reply: four checks in order — type must be ICMP_ECHOREPLY (0),
code must be 0, un.echo.id must equal expected_id, and memcmp of the two
56-byte payloads must report equality. -/
def verify_reply (sent received : PingPkt) (expected_id : Nat) : Bool :=
  if received.type ≠ 0 then false
  else if received.code ≠ 0 then false
  else if received.id ≠ expected_id then false
  else if sent.payload ≠ received.payload then false
  else true

/-- Full carry fold of a checksum accumulator: repeatedly add the high 16
bits back into the low 16 bits until no carry remains (the spec's and the
glossary's notion of "checksum fold"). -/
def foldFull (x : Nat) : Nat :=
  if x < 65536 then x
  else foldFull (x / 65536 + x % 65536)
termination_by x
decreasing_by
  simp_wf
  omega

/-- The spec's view of the buffer as a sequence of 16-bit words as laid out
in memory, with an odd trailing byte contributing the low byte of a final
word. -/
def to_words : List Nat → List Nat
  | b0 :: b1 :: rest => (b0 + 256 * b1) :: to_words rest
  | [b] => [b]
  | [] => []

/-- Reference checksum, following the words of spec §4.1: sum all 16-bit
words into a 32-bit accumulator; add an odd trailing byte as the low byte of
a final word; fold carries by adding the high 16 bits back into the low 16
bits, twice; return the one's complement (bitwise NOT) of the resulting
16-bit value, truncated to 16 bits. -/
def compute_checksum_spec (bytes : List Nat) : Nat :=
  let acc := (to_words bytes).foldl (fun a w => (a + w) % 4294967296) 0
  let once := acc / 65536 + acc % 65536
  let twice := once / 65536 + once % 65536
  65535 - twice % 65536

/-- One call to `recvfrom` in the receive loop: its return value (`size`, an
`ssize_t`: negative on error or socket timeout), the buffer contents, and
the monotonic clock value (in milliseconds) read by `clock_gettime`
immediately after the call returns. -/
structure RecvEvent where
  size : Int
  bytes : List Nat
  time : Int
deriving DecidableEq

/-- The possible returns of `icmp_ping`: -1 for each of the four setup
failures, 1 with an elapsed duration on success, -2 (with the last measured
duration in the out-parameter) on timeout. -/
inductive PingReturn where
  | resolveFailed
  | socketFailed
  | ttlFailed
  | rcvtimeoFailed
  | success (duration : Int)
  | timeout (duration : Int)
deriving DecidableEq

/-- The match test of one loop iteration:
`data_received == raw_icmp_response_length` and `verify_reply` succeeds on
the packet read at `&buffer[ip_header_length]`. -/
def is_match (sent : PingPkt) (my_id : Nat) (e : RecvEvent) : Bool :=
  e.size == (84 : Int) &&
    verify_reply sent (parse_ping_pkt (e.bytes.drop 20)) my_id

/-- The `while (!done)` receive loop of `icmp_ping`, driven by the trace of
receive events.  Each iteration measures `duration` from the monotonic
clock, sets `done` when `duration > timeout_ms`, returns success when a
matching packet of exactly 84 bytes arrived (the C code does so even when
`done` was just set, since the length/verify check precedes the loop-guard
re-check), otherwise logs the unrelated message and loops, exiting with the
timeout return once `done`.  `none` models a trace too short to decide the
run (the real loop would issue further receives). -/
def ping_loop (sent : PingPkt) (my_id : Nat) (timeout_ms start : Int) :
    List RecvEvent → Option PingReturn
  | [] => none
  | e :: rest =>
    let duration := e.time - start
    if is_match sent my_id e then some (.success duration)
    else if timeout_ms < duration then some (.timeout duration)
    else ping_loop sent my_id timeout_ms start rest

/-- The environment of one `icmp_ping` call: whether DNS resolution, socket
creation and the two setsockopt calls succeed, the process id, the monotonic
clock value at the `clock_gettime` before the send, and the trace of receive
events. -/
structure PingEnv where
  resolves : Bool
  socket_ok : Bool
  ttl_ok : Bool
  rcvtimeo_ok : Bool
  pid : Nat
  start : Int
  events : List RecvEvent

/-- icmp_ping: resolve, create the raw socket, set TTL and receive timeout
(each failure returns -1 immediately), build the packet, record the start
timestamp, send, then run the receive loop with `my_icmp_id = getpid()`
truncated to `uint16_t`. -/
def icmp_ping (env : PingEnv) (timeout_ms : Int) : Option PingReturn :=
  if env.resolves = false then some .resolveFailed
  else if env.socket_ok = false then some .socketFailed
  else if env.ttl_ok = false then some .ttlFailed
  else if env.rcvtimeo_ok = false then some .rcvtimeoFailed
  else
    ping_loop (initialize_icmp_packet env.pid) (env.pid % 65536)
      timeout_ms env.start env.events

/-- icmp_socket::receive of the C++ implementation: any `recvfrom` result
`<= 0` (OS error as well as socket timeout) is normalised to the empty
buffer, otherwise the buffer is resized to the received length. -/
def icmp_socket_receive (bytes_received : Int) (buffer : List Nat) : List Nat :=
  if bytes_received ≤ 0 then [] else buffer.take bytes_received.toNat

/-- The integer return value of `icmp_ping` as the C `main` sees it. -/
def ping_return_code : PingReturn → Int
  | .success _ => 1
  | .timeout _ => -2
  | .resolveFailed => -1
  | .socketFailed => -1
  | .ttlFailed => -1
  | .rcvtimeoFailed => -1

/-- Discriminator for the timeout outcome. -/
def is_timeout_result : PingReturn → Bool
  | .timeout _ => true
  | _ => false

/-- Discriminator for the success outcome. -/
def is_success_result : PingReturn → Bool
  | .success _ => true
  | _ => false

/-- One iteration of the C `main` loop over an attempt's result: on
`result == -2` print the timed-out line and set `status_code = -2`; on
`result > 0` print the elapsed-time line; otherwise (result -1) print
nothing in `main` and leave the status unchanged.  The accumulator is
(number of per-attempt lines printed so far, status_code). -/
def c_main_step (acc : Nat × Int) (r : PingReturn) : Nat × Int :=
  if ping_return_code r = -2 then (acc.1 + 1, -2)
  else if ping_return_code r > 0 then (acc.1 + 1, acc.2)
  else acc

/-- The C `main` attempt loop (status_code starts at 0), applied to the
results of the four attempts; returns (lines printed, exit status). -/
def c_main (results : List PingReturn) : Nat × Int :=
  results.foldl c_main_step (0, 0)

/-- Per-attempt lines printed by the C++ `main` loop: one line whether the
optional duration is present (time line) or empty (timed-out line). -/
def cpp_main_line_count : List (Option Int) → Nat
  | [] => 0
  | some _ :: rest => 1 + cpp_main_line_count rest
  | none :: rest => 1 + cpp_main_line_count rest

/-- The C++ `main` attempt loop; its `main` has no return statement, so the
process exit status is 0 regardless of the attempts' outcomes. -/
def cpp_main (results : List (Option Int)) : Nat × Int :=
  (cpp_main_line_count results, 0)

/-- The wire layout asserted by the claim for the packet builder: type byte
8, code byte 0, and checksum, identifier and sequence each stored as 2 bytes
in network byte order (high byte first), with 64 bytes in total. -/
def network_order_layout (p : PingPkt) (bytes : List Nat) : Bool :=
  bytes.length == 64 &&
  bytes.getD 0 0 == 8 && bytes.getD 1 0 == 0 &&
  bytes.getD 2 0 == p.checksum / 256 && bytes.getD 3 0 == p.checksum % 256 &&
  bytes.getD 4 0 == p.id / 256 && bytes.getD 5 0 == p.id % 256 &&
  bytes.getD 6 0 == p.sequence / 256 && bytes.getD 7 0 == p.sequence % 256

/-- Concrete fixture: the packet a process with pid 7 sends. -/
def pkt7 : PingPkt := initialize_icmp_packet 7

/-- Concrete fixture: a well-formed echo reply matching pkt7 (the replying
host echoes identifier, sequence and payload and sets type to 0; the
checksum field is irrelevant to verify_reply). -/
def reply7 : PingPkt :=
  { type := 0, code := 0, checksum := 0, id := 7, sequence := 0,
    payload := ping_payload }

/-- Concrete fixture: a validly-sized but unrelated reply (identifier 9). -/
def unrel7 : PingPkt :=
  { type := 0, code := 0, checksum := 0, id := 9, sequence := 0,
    payload := ping_payload }

/-- Concrete fixture: the 84 wire bytes of reply7 behind a 20-byte IP header. -/
def match_bytes : List Nat := List.replicate 20 0 ++ serialize_ping_pkt reply7

/-- Concrete fixture: the 84 wire bytes of unrel7 behind a 20-byte IP header. -/
def unrel_bytes : List Nat := List.replicate 20 0 ++ serialize_ping_pkt unrel7

/-- Concrete fixture: the matching reply arrives at t = 5 ms. -/
def ev_match : RecvEvent := { size := 84, bytes := match_bytes, time := 5 }

/-- Concrete fixture: the unrelated reply arrives at t = 3 ms. -/
def ev_unrel : RecvEvent := { size := 84, bytes := unrel_bytes, time := 3 }

/-- Concrete fixture: a no-data receive returning at t = 2501 ms. -/
def ev_late : RecvEvent := { size := 0, bytes := [], time := 2501 }

/-- Concrete fixture: a run whose first receive is the matching reply. -/
def env_reply : PingEnv :=
  { resolves := true, socket_ok := true, ttl_ok := true, rcvtimeo_ok := true,
    pid := 7, start := 0, events := [ev_match] }

/-- Concrete fixture: a run against a black-holed target; the sole receive
returns without data once the socket timeout has expired. -/
def env_silent : PingEnv :=
  { resolves := true, socket_ok := true, ttl_ok := true, rcvtimeo_ok := true,
    pid := 7, start := 0, events := [ev_late] }

/-- Concrete fixture: four C attempt results (success, timeout, setup
failure, success). -/
def rs0 : List PingReturn :=
  [.success 1, .timeout 2500, .resolveFailed, .success 3]

/-- Concrete fixture: four C++ attempt results. -/
def os0 : List (Option Int) := [some 1, none, some 2, none]

/-! ## Theorems -/

theorem foldFull_of_lt {x : Nat} (h : x < 65536) : foldFull x = x := by
  rw [foldFull]
  simp [h]

theorem foldFull_of_ge {x : Nat} (h : 65536 ≤ x) :
    foldFull x = foldFull (x / 65536 + x % 65536) := by
  rw [foldFull]
  simp [Nat.not_lt.mpr h]

theorem foldFull_lt (x : Nat) : foldFull x < 65536 := by
  induction x using Nat.strong_induction_on with
  | _ x ih =>
    by_cases h : x < 65536
    · rw [foldFull_of_lt h]; exact h
    · rw [foldFull_of_ge (Nat.not_lt.mp h)]
      exact ih _ (by omega)

theorem foldFull_le (x : Nat) : foldFull x ≤ x := by
  induction x using Nat.strong_induction_on with
  | _ x ih =>
    by_cases h : x < 65536
    · rw [foldFull_of_lt h]
    · rw [foldFull_of_ge (Nat.not_lt.mp h)]
      calc foldFull (x / 65536 + x % 65536) ≤ x / 65536 + x % 65536 :=
            ih _ (by omega)
        _ ≤ x := by omega

theorem foldFull_mod (x : Nat) : foldFull x % 65535 = x % 65535 := by
  induction x using Nat.strong_induction_on with
  | _ x ih =>
    by_cases h : x < 65536
    · rw [foldFull_of_lt h]
    · rw [foldFull_of_ge (Nat.not_lt.mp h)]
      rw [ih _ (by omega)]
      omega

theorem foldFull_ne_zero {x : Nat} (h : x ≠ 0) : foldFull x ≠ 0 := by
  induction x using Nat.strong_induction_on with
  | _ x ih =>
    by_cases hx : x < 65536
    · rw [foldFull_of_lt hx]; exact h
    · rw [foldFull_of_ge (Nat.not_lt.mp hx)]
      exact ih _ (by omega) (by omega)

theorem foldFull_eq_ffff {x : Nat} (hpos : x ≠ 0) (hdvd : x % 65535 = 0) :
    foldFull x = 65535 := by
  have h1 := foldFull_lt x
  have h2 := foldFull_mod x
  have h3 := foldFull_ne_zero hpos
  omega

theorem wordSum_le : ∀ l : List Nat, (∀ b ∈ l, b < 256) →
    wordSum l ≤ 32768 * l.length
  | [] => fun _ => by simp [wordSum]
  | [b] => fun h => by
      have := h b (by simp)
      simp [wordSum]
      omega
  | b0 :: b1 :: rest => fun h => by
      have h0 := h b0 (by simp)
      have h1 := h b1 (by simp)
      have ih := wordSum_le rest (fun b hb => h b (by simp [hb]))
      simp only [wordSum, List.length_cons]
      omega

theorem calculate_checksum_lt (bytes : List Nat) :
    calculate_checksum bytes < 65536 := by
  simp only [calculate_checksum]
  omega

theorem checksum_fold_closed (S : Nat) (h : S ≤ 2097152) :
    (4294967295 -
      ((S % 4294967296 / 65536 + S % 4294967296 % 65536) % 4294967296 +
       (S % 4294967296 / 65536 + S % 4294967296 % 65536) % 4294967296 / 65536) %
        4294967296) % 65536
    = 65535 - foldFull S := by
  rw [Nat.mod_eq_of_lt (show S < 4294967296 by omega)]
  rw [Nat.mod_eq_of_lt (show S / 65536 + S % 65536 < 4294967296 by omega)]
  obtain ⟨T, hT⟩ : ∃ T, T = S / 65536 + S % 65536 := ⟨_, rfl⟩
  rw [← hT]
  rw [Nat.mod_eq_of_lt (show T + T / 65536 < 4294967296 by omega)]
  by_cases hsmall : S < 65536
  · rw [foldFull_of_lt hsmall]
    omega
  · rw [foldFull_of_ge (Nat.not_lt.mp hsmall), ← hT]
    by_cases hmid : T < 65536
    · rw [foldFull_of_lt hmid]
      omega
    · rw [foldFull_of_ge (Nat.not_lt.mp hmid), foldFull_of_lt (by omega)]
      omega

theorem calculate_checksum_eq_foldFull (bytes : List Nat)
    (h : wordSum bytes ≤ 2097152) :
    calculate_checksum bytes = 65535 - foldFull (wordSum bytes) := by
  simp only [calculate_checksum]
  exact checksum_fold_closed (wordSum bytes) h

theorem to_words_sum : ∀ l : List Nat, (to_words l).sum = wordSum l
  | [] => by simp [to_words, wordSum]
  | [b] => by simp [to_words, wordSum]
  | b0 :: b1 :: rest => by
      have ih := to_words_sum rest
      simp [to_words, wordSum, ih]

theorem foldl_mod_add : ∀ (ws : List Nat) (a : Nat),
    ws.foldl (fun x w => (x + w) % 4294967296) (a % 4294967296) =
      (a + ws.sum) % 4294967296
  | [], a => by simp
  | w :: t, a => by
      have ih := foldl_mod_add t (a + w)
      simp only [List.foldl_cons, List.sum_cons]
      rw [show (a % 4294967296 + w) % 4294967296 = (a + w) % 4294967296 by omega]
      rw [ih, Nat.add_assoc]

/-- C1: verify_reply returns true exactly when the received packet has
type EchoReply (0), code 0, the expected identifier, and a payload
byte-for-byte identical to the sent packet's payload; if any one condition
fails it returns false. -/
theorem claim_C1_verify_reply_iff (sent received : PingPkt) (expected_id : Nat) :
    verify_reply sent received expected_id = true ↔
      (received.type = 0 ∧ received.code = 0 ∧ received.id = expected_id ∧
       received.payload = sent.payload) := by
  simp only [verify_reply]
  split_ifs with h1 h2 h3 h4 <;> simp_all
  exact fun h => h4 h.symm

/-- C2: for every 64-byte buffer whose checksum field (bytes 2..3) is zero,
inserting the computed checksum into that field and re-running the 16-bit
one's-complement summation over the whole buffer yields an accumulator that
fully folds to 0xFFFF. -/
theorem claim_C2_checksum_self_check (b0 b1 : Nat) (rest : List Nat)
    (h0 : b0 < 256) (h1 : b1 < 256)
    (hrest : ∀ b ∈ rest, b < 256) (hlen : rest.length = 60) :
    foldFull (wordSum (b0 :: b1 ::
        calculate_checksum (b0 :: b1 :: 0 :: 0 :: rest) % 256 ::
        calculate_checksum (b0 :: b1 :: 0 :: 0 :: rest) / 256 :: rest) %
      4294967296) = 65535 := by
  have hble : ∀ b ∈ (b0 :: b1 :: 0 :: 0 :: rest), b < 256 := by
    intro b hb
    simp only [List.mem_cons] at hb
    rcases hb with rfl | rfl | rfl | rfl | hb
    · exact h0
    · exact h1
    · norm_num
    · norm_num
    · exact hrest b hb
  have hS := wordSum_le _ hble
  simp only [List.length_cons, hlen] at hS
  have hS' : wordSum (b0 :: b1 :: 0 :: 0 :: rest) ≤ 2097152 := by omega
  have hceq := calculate_checksum_eq_foldFull _ hS'
  have hclt := calculate_checksum_lt (b0 :: b1 :: 0 :: 0 :: rest)
  have e1 : wordSum (b0 :: b1 :: 0 :: 0 :: rest) =
      (b0 + 256 * b1) + wordSum rest := by
    simp [wordSum]
  have e2 : wordSum (b0 :: b1 ::
      calculate_checksum (b0 :: b1 :: 0 :: 0 :: rest) % 256 ::
      calculate_checksum (b0 :: b1 :: 0 :: 0 :: rest) / 256 :: rest) =
      (b0 + 256 * b1) +
        (calculate_checksum (b0 :: b1 :: 0 :: 0 :: rest) % 256 +
          256 * (calculate_checksum (b0 :: b1 :: 0 :: 0 :: rest) / 256)) +
        wordSum rest := by
    simp [wordSum]
    ring
  have hf_le := foldFull_le (wordSum (b0 :: b1 :: 0 :: 0 :: rest))
  have hf_lt := foldFull_lt (wordSum (b0 :: b1 :: 0 :: 0 :: rest))
  have hf_mod := foldFull_mod (wordSum (b0 :: b1 :: 0 :: 0 :: rest))
  rw [e2, Nat.mod_eq_of_lt (by omega)]
  exact foldFull_eq_ffff (by omega) (by omega)

/-- C2 witness: the all-zero buffer, whose checksum is 0xFFFF. -/
theorem claim_C2_witness :
    foldFull (wordSum ((0 : Nat) :: 0 ::
        calculate_checksum (0 :: 0 :: 0 :: 0 :: List.replicate 60 0) % 256 ::
        calculate_checksum (0 :: 0 :: 0 :: 0 :: List.replicate 60 0) / 256 ::
        List.replicate 60 0) % 4294967296) = 65535 :=
  claim_C2_checksum_self_check 0 0 (List.replicate 60 0) (by norm_num)
    (by norm_num) (by decide) (by decide)

/-- C3: the implemented checksum coincides with the reference definition
written from the spec's words, on every input buffer. -/
theorem claim_C3_checksum_matches_reference (bytes : List Nat) :
    compute_checksum_spec bytes = calculate_checksum bytes := by
  simp only [compute_checksum_spec, calculate_checksum]
  have h0 : (to_words bytes).foldl (fun x w => (x + w) % 4294967296) 0 =
      wordSum bytes % 4294967296 := by
    have h := foldl_mod_add (to_words bytes) 0
    simp only [Nat.zero_mod, Nat.zero_add] at h
    rw [h, to_words_sum]
  rw [h0]
  obtain ⟨S, hS⟩ : ∃ S, S = wordSum bytes % 4294967296 := ⟨_, rfl⟩
  rw [← hS]
  have hSlt : S < 4294967296 := by omega
  rw [Nat.mod_eq_of_lt (show S / 65536 + S % 65536 < 4294967296 by omega)]
  obtain ⟨T, hT⟩ : ∃ T, T = S / 65536 + S % 65536 := ⟨_, rfl⟩
  rw [← hT]
  rw [Nat.mod_eq_of_lt (show T + T / 65536 < 4294967296 by omega)]
  omega

theorem ping_loop_timeout_of_no_match (sent : PingPkt) (my_id : Nat)
    (timeout_ms start : Int) :
    ∀ trace : List RecvEvent,
      (∀ e ∈ trace, is_match sent my_id e = false) →
      (∃ e ∈ trace, start + timeout_ms < e.time) →
      ∃ d, ping_loop sent my_id timeout_ms start trace = some (.timeout d)
  | [], _, hex => absurd hex (by simp)
  | e :: rest, hall, hex => by
      have he : is_match sent my_id e = false := hall e (by simp)
      by_cases hd : timeout_ms < e.time - start
      · exact ⟨e.time - start, by simp [ping_loop, he, hd]⟩
      · have hex' : ∃ e2 ∈ rest, start + timeout_ms < e2.time := by
          rcases hex with ⟨e2, h2, h3⟩
          simp only [List.mem_cons] at h2
          rcases h2 with rfl | h2
          · omega
          · exact ⟨e2, h2, h3⟩
        obtain ⟨d, hd2⟩ := ping_loop_timeout_of_no_match sent my_id timeout_ms
          start rest (fun x hx => hall x (by simp [hx])) hex'
        exact ⟨d, by simp [ping_loop, he, hd, hd2]⟩

theorem ping_loop_result (sent : PingPkt) (my_id : Nat)
    (timeout_ms start : Int) (trace : List RecvEvent) :
    ∀ r, ping_loop sent my_id timeout_ms start trace = some r →
      (∃ d, r = PingReturn.success d) ∨ (∃ d, r = PingReturn.timeout d) := by
  induction trace with
  | nil => intro r h; simp [ping_loop] at h
  | cons e rest ih =>
    intro r h
    simp only [ping_loop] at h
    split_ifs at h with h1 h2
    · exact Or.inl ⟨e.time - start, by injection h with h; exact h.symm⟩
    · exact Or.inr ⟨e.time - start, by injection h with h; exact h.symm⟩
    · exact ih r h

/-- C4: against a black-holed target every receive yields no data; under the
configured socket receive-timeout semantics, the first receive already
returns after the deadline (strictly more than timeout_ms, at most
timeout_ms plus the scheduling-overhead bound `slack` after the start), and
the probe then terminates immediately with the Timeout outcome, its reported
duration within timeout_ms + slack. -/
theorem claim_C4_timeout_bounded (env : PingEnv) (timeout_ms slack : Int)
    (e : RecvEvent) (rest : List RecvEvent)
    (hr : env.resolves = true) (hs : env.socket_ok = true)
    (ht : env.ttl_ok = true) (hc : env.rcvtimeo_ok = true)
    (hev : env.events = e :: rest)
    (hnodata : e.size ≤ 0)
    (hnodata' : ∀ e2 ∈ rest, e2.size ≤ 0)
    (hmin : env.start + timeout_ms < e.time)
    (hmax : e.time ≤ env.start + timeout_ms + slack) :
    ∃ d, icmp_ping env timeout_ms = some (.timeout d) ∧
      timeout_ms < d ∧ d ≤ timeout_ms + slack := by
  have hm : is_match (initialize_icmp_packet env.pid) (env.pid % 65536) e = false := by
    simp only [is_match, Bool.and_eq_false_iff]
    left
    simp only [beq_eq_false_iff_ne, ne_eq]
    omega
  refine ⟨e.time - env.start, ?_, by omega, by omega⟩
  simp only [icmp_ping, hr, hs, ht, hc, hev]
  simp [ping_loop, hm, show timeout_ms < e.time - env.start by omega]

/-- C4 witness: a 2500 ms probe whose sole receive returns empty at 2501 ms. -/
theorem claim_C4_witness :
    ∃ d, icmp_ping env_silent 2500 = some (.timeout d) ∧
      2500 < d ∧ d ≤ 2500 + 10 :=
  claim_C4_timeout_bounded env_silent 2500 10 ev_late [] rfl rfl rfl rfl rfl
    (by decide) (by decide) (by decide) (by decide)

/-- C5: an unrelated but validly-sized packet received before the deadline
does not terminate the probe and does not move the deadline: with the
original deadline, a matching reply arriving later (before the deadline)
still yields Success with its own elapsed time, and if no matching reply
ever arrives the probe still ends in Timeout once an event passes the
deadline. -/
theorem claim_C5_unrelated_packet_ignored (sent : PingPkt) (my_id : Nat)
    (timeout_ms start : Int) (e1 : RecvEvent)
    (hu : is_match sent my_id e1 = false)
    (hb : e1.time - start ≤ timeout_ms) :
    (∀ (e2 : RecvEvent) (rest : List RecvEvent),
        is_match sent my_id e2 = true →
        e2.time - start ≤ timeout_ms →
        ping_loop sent my_id timeout_ms start (e1 :: e2 :: rest) =
          some (.success (e2.time - start)))
    ∧ (∀ rest : List RecvEvent,
        (∀ e ∈ rest, is_match sent my_id e = false) →
        (∃ e ∈ rest, start + timeout_ms < e.time) →
        ∃ d, ping_loop sent my_id timeout_ms start (e1 :: rest) =
          some (.timeout d)) := by
  have hnd : ¬ timeout_ms < e1.time - start := by omega
  constructor
  · intro e2 rest hm _
    simp [ping_loop, hu, hnd, hm]
  · intro rest hall hex
    obtain ⟨d, hd⟩ := ping_loop_timeout_of_no_match sent my_id timeout_ms
      start rest hall hex
    exact ⟨d, by simp [ping_loop, hu, hnd, hd]⟩

/-- C5 witness: with pid 7's packet, an unrelated id-9 reply at 3 ms followed
by the matching reply at 5 ms gives Success(5); followed instead by only a
no-data receive at 2501 ms it gives Timeout. -/
theorem claim_C5_witness :
    ping_loop pkt7 7 2500 0 [ev_unrel, ev_match] = some (.success (5 - 0)) ∧
      ∃ d, ping_loop pkt7 7 2500 0 [ev_unrel, ev_late] = some (.timeout d) := by
  have h := claim_C5_unrelated_packet_ignored pkt7 7 2500 0 ev_unrel
    (by decide) (by decide)
  exact ⟨h.1 ev_match [] (by decide) (by decide),
    h.2 [ev_late] (by decide) (by decide)⟩

/-- C7: a well-formed matching reply delivered as the first receive event,
at a monotonic time at least the start and strictly before start + timeout,
makes the probe return Success with elapsed = receive time minus start,
which is ≥ 0 and < the configured timeout. -/
theorem claim_C7_immediate_reply (env : PingEnv) (timeout_ms : Int)
    (e : RecvEvent) (rest : List RecvEvent)
    (hr : env.resolves = true) (hs : env.socket_ok = true)
    (ht : env.ttl_ok = true) (hc : env.rcvtimeo_ok = true)
    (hev : env.events = e :: rest)
    (hm : is_match (initialize_icmp_packet env.pid) (env.pid % 65536) e = true)
    (h0 : env.start ≤ e.time)
    (h1 : e.time < env.start + timeout_ms) :
    icmp_ping env timeout_ms = some (.success (e.time - env.start)) ∧
      0 ≤ e.time - env.start ∧ e.time - env.start < timeout_ms := by
  refine ⟨?_, by omega, by omega⟩
  simp only [icmp_ping, hr, hs, ht, hc, hev]
  simp [ping_loop, hm]

/-- C7 witness: pid 7's matching reply arriving at 5 ms with a 2500 ms
timeout yields Success(5). -/
theorem claim_C7_witness :
    icmp_ping env_reply 2500 = some (.success (5 - 0)) ∧
      0 ≤ (5 : Int) - 0 ∧ (5 : Int) - 0 < 2500 :=
  claim_C7_immediate_reply env_reply 2500 ev_match [] rfl rfl rfl rfl rfl
    (by decide) (by decide) (by decide)

/-- C9: verify_reply never inspects the received sequence number or checksum
field: its result is unchanged under replacing them, and whenever type, code
and identifier check out and the payload equals the sent payload, the result
is true whatever sequence and checksum hold. -/
theorem claim_C9_ignores_sequence_and_checksum (sent : PingPkt)
    (expected_id t c chk chk2 seq seq2 idv : Nat) (payload : List Nat) :
    (verify_reply sent ⟨t, c, chk, idv, seq, payload⟩ expected_id =
      verify_reply sent ⟨t, c, chk2, idv, seq2, payload⟩ expected_id)
    ∧ ((t = 0 ∧ c = 0 ∧ idv = expected_id ∧ payload = sent.payload) →
        verify_reply sent ⟨t, c, chk, idv, seq, payload⟩ expected_id = true) := by
  constructor
  · simp [verify_reply]
  · rintro ⟨rfl, rfl, rfl, h4⟩
    simp [verify_reply, h4]

/-- C9 witness: two candidate replies differing only in checksum (123 vs
456, the latter invalid for the packet) and sequence (9 vs 11) validate
identically, and the first validates successfully. -/
theorem claim_C9_witness :
    (verify_reply pkt7 ⟨0, 0, 123, 7, 9, ping_payload⟩ 7 =
      verify_reply pkt7 ⟨0, 0, 456, 7, 11, ping_payload⟩ 7)
    ∧ verify_reply pkt7 ⟨0, 0, 123, 7, 9, ping_payload⟩ 7 = true := by
  have h := claim_C9_ignores_sequence_and_checksum pkt7 7 0 0 123 456 9 11 7
    ping_payload
  exact ⟨h.1, h.2 ⟨rfl, rfl, rfl, by decide⟩⟩

/-- C10: after the send, the probe can no longer fail with a transport
error: the C++ receive normalises every no-data result (OS error or socket
timeout) to the same empty buffer, the C loop's behaviour on a no-data event
depends only on its timing, and a run that got past setup ends only in
Success or Timeout. -/
theorem claim_C10_no_transport_error_after_send :
    (∀ (br br2 : Int) (buf buf2 : List Nat), br ≤ 0 → br2 ≤ 0 →
        icmp_socket_receive br buf = icmp_socket_receive br2 buf2)
    ∧ (∀ (sent : PingPkt) (my_id : Nat) (timeout_ms start : Int)
        (e e2 : RecvEvent) (rest : List RecvEvent),
        e.size ≤ 0 → e2.size ≤ 0 → e.time = e2.time →
        ping_loop sent my_id timeout_ms start (e :: rest) =
          ping_loop sent my_id timeout_ms start (e2 :: rest))
    ∧ (∀ (env : PingEnv) (timeout_ms : Int) (r : PingReturn),
        env.resolves = true → env.socket_ok = true → env.ttl_ok = true →
        env.rcvtimeo_ok = true →
        icmp_ping env timeout_ms = some r →
        (∃ d, r = PingReturn.success d) ∨ (∃ d, r = PingReturn.timeout d)) := by
  refine ⟨?_, ?_, ?_⟩
  · intro br br2 buf buf2 h h2
    simp [icmp_socket_receive, h, h2]
  · intro sent my_id timeout_ms start e e2 rest h h2 ht
    have hm : is_match sent my_id e = false := by
      simp only [is_match, Bool.and_eq_false_iff]
      left
      simp only [beq_eq_false_iff_ne, ne_eq]
      omega
    have hm2 : is_match sent my_id e2 = false := by
      simp only [is_match, Bool.and_eq_false_iff]
      left
      simp only [beq_eq_false_iff_ne, ne_eq]
      omega
    simp [ping_loop, hm, hm2, ht]
  · intro env timeout_ms r hr hs ht hc h
    simp only [icmp_ping, hr, hs, ht, hc] at h
    simp only [Bool.true_eq_false, if_false] at h
    exact ping_loop_result _ _ _ _ _ r h

/-- C10 witness: a socket-timeout receive (0) and an OS-error receive (-1)
normalise identically, a no-data event's effect on the loop is the same
either way, and a completed run's outcome is Success or Timeout. -/
theorem claim_C10_witness :
    icmp_socket_receive 0 [1, 2] = icmp_socket_receive (-1) [] ∧
      ping_loop pkt7 7 2500 0 [{ size := 0, bytes := [], time := 5 }] =
        ping_loop pkt7 7 2500 0 [{ size := -1, bytes := [9], time := 5 }] ∧
      ((∃ d, PingReturn.success (5 - 0) = PingReturn.success d) ∨
        (∃ d, PingReturn.success (5 - 0) = PingReturn.timeout d)) := by
  have h := claim_C10_no_transport_error_after_send
  refine ⟨h.1 0 (-1) [1, 2] [] (by decide) (by decide),
    h.2.1 pkt7 7 2500 0 _ _ [] (by decide) (by decide) (by decide),
    h.2.2 env_reply 2500 (PingReturn.success (5 - 0)) rfl rfl rfl rfl (by decide)⟩

theorem initialize_icmp_packet_fields (pid : Nat) :
    (initialize_icmp_packet pid).type = 8 ∧
    (initialize_icmp_packet pid).code = 0 ∧
    (initialize_icmp_packet pid).sequence = 0 ∧
    (initialize_icmp_packet pid).id = pid % 65536 ∧
    (initialize_icmp_packet pid).payload = ping_payload :=
  ⟨rfl, rfl, rfl, rfl, rfl⟩

theorem initialize_icmp_packet_checksum_lt (pid : Nat) :
    (initialize_icmp_packet pid).checksum < 65536 :=
  calculate_checksum_lt _

/-- C6 counterexample: for pid 258 (= 0x0102), the identifier bytes the
builder lays out are low byte first (2 then 1), not the network byte order
(1 then 2) the claim asserts, so the claimed wire layout does not hold. -/
theorem claim_C6_counterexample :
    network_order_layout (initialize_icmp_packet 258)
      (serialize_ping_pkt (initialize_icmp_packet 258)) = false := by
  decide

/-- C6 amended: every packet the builder produces has type byte 8, code byte
0, 64 bytes in total, and its checksum, identifier and sequence fields
stored as 2 bytes in host (little-endian) byte order — low byte first, the
opposite of network byte order whenever the two bytes of the field differ;
the sequence field is always zero and the identifier is getpid() mod 2^16. -/
theorem claim_C6_amended (pid : Nat) :
    serialize_ping_pkt (initialize_icmp_packet pid) =
      [8, 0, (initialize_icmp_packet pid).checksum % 256,
       (initialize_icmp_packet pid).checksum / 256,
       (initialize_icmp_packet pid).id % 256,
       (initialize_icmp_packet pid).id / 256, 0, 0] ++ ping_payload
    ∧ (serialize_ping_pkt (initialize_icmp_packet pid)).length = 64
    ∧ (initialize_icmp_packet pid).type = 8
    ∧ (initialize_icmp_packet pid).code = 0
    ∧ (initialize_icmp_packet pid).sequence = 0
    ∧ (initialize_icmp_packet pid).id = pid % 65536 := by
  obtain ⟨ht, hcd, hsq, hid, hpl⟩ := initialize_icmp_packet_fields pid
  have hc := initialize_icmp_packet_checksum_lt pid
  have hidlt : (initialize_icmp_packet pid).id < 65536 := by omega
  refine ⟨?_, ?_, ht, hcd, hsq, hid⟩
  · simp only [serialize_ping_pkt, ht, hcd, hsq, hpl, List.cons.injEq,
      List.append_cancel_right_eq, and_true, true_and]
    omega
  · simp only [serialize_ping_pkt, List.length_append, List.length_cons,
      List.length_nil, hpl]
    decide

theorem c_main_fold_lines : ∀ (rs : List PingReturn) (acc : Nat × Int),
    (List.foldl c_main_step acc rs).1 =
      acc.1 + (rs.filter
        (fun r => is_timeout_result r || is_success_result r)).length
  | [], acc => by simp
  | r :: rest, acc => by
      have ih := c_main_fold_lines rest (c_main_step acc r)
      cases r <;>
        simp_all [c_main_step, ping_return_code, is_timeout_result,
          is_success_result] <;>
        omega

theorem c_main_fold_status : ∀ (rs : List PingReturn) (acc : Nat × Int),
    (List.foldl c_main_step acc rs).2 =
      if rs.any is_timeout_result then -2 else acc.2
  | [], acc => by simp
  | r :: rest, acc => by
      have ih := c_main_fold_status rest (c_main_step acc r)
      cases r <;>
        simp_all [c_main_step, ping_return_code, is_timeout_result]

theorem cpp_main_line_count_eq : ∀ os : List (Option Int),
    cpp_main_line_count os = os.length
  | [] => rfl
  | some d :: rest => by
      simp [cpp_main_line_count, cpp_main_line_count_eq rest]
      omega
  | none :: rest => by
      simp [cpp_main_line_count, cpp_main_line_count_eq rest]
      omega

/-- C8 counterexample: a C++ run in which every one of the four attempts
timed out (all optionals empty) still exits with status 0, because the C++
main has no return statement; this refutes "exit status is non-zero if and
only if at least one attempt timed out" for the CLI as implemented. -/
theorem claim_C8_counterexample :
    (cpp_main [none, none, none, none]).2 = 0 ∧
      ([none, none, none, none] : List (Option Int)).all Option.isNone = true := by
  decide

/-- C8 amended: both entry points perform exactly 4 probe attempts.  The C
main prints one line for each attempt that succeeds or times out (an attempt
failing in setup prints no per-attempt line) and exits non-zero iff at least
one attempt timed out; the C++ main prints one line per attempt but always
exits 0. -/
theorem claim_C8_amended (rs : List PingReturn) (os : List (Option Int))
    (hrs : rs.length = 4) (hos : os.length = 4) :
    ((c_main rs).1 = (rs.filter
        (fun r => is_timeout_result r || is_success_result r)).length
      ∧ ((c_main rs).2 ≠ 0 ↔ rs.any is_timeout_result = true))
    ∧ (cpp_main os).1 = 4 ∧ (cpp_main os).2 = 0 := by
  refine ⟨⟨?_, ?_⟩, ?_, rfl⟩
  · have h := c_main_fold_lines rs (0, 0)
    simpa [c_main] using h
  · have h := c_main_fold_status rs (0, 0)
    rw [c_main, h]
    by_cases hany : rs.any is_timeout_result <;> simp [hany]
  · show cpp_main_line_count os = 4
    rw [cpp_main_line_count_eq os, hos]

/-- C8 witness: a concrete run (success, timeout, setup failure, success)
for the C main — 3 lines, non-zero status — and a concrete C++ run of 4
attempts — 4 lines, status 0. -/
theorem claim_C8_witness :
    ((c_main rs0).1 = (rs0.filter
        (fun r => is_timeout_result r || is_success_result r)).length
      ∧ ((c_main rs0).2 ≠ 0 ↔ rs0.any is_timeout_result = true))
    ∧ (cpp_main os0).1 = 4 ∧ (cpp_main os0).2 = 0 :=
  claim_C8_amended rs0 os0 rfl rfl
